import Mathlib

/-!
# Verification of the moltbot Lark connector

Shallow embedding of the Lark channel extension of the moltbot repository:

* the text chunker of the outbound send path (src/extensions/lark/src/send.ts,
  function chunkText),
* the retrying API wrapper (src/extensions/lark/src/api.ts, withRetry,
  isRetryableError, computeRetryDelay),
* the WebSocket reconnect backoff (send.ts, computeBackoff) and the
  connection loop (send.ts, startConnection),
* the inbound message processor and access-control gate
  (src/extensions/lark/src/monitor.ts, processMessage) with its external
  collaborators (pairing store, command-authorization predicate) modelled
  as explicit oracles,
* the reply delivery engine (send.ts, deliverLarkReply) and the direct
  send path (send.ts, sendMessageLark).

JavaScript strings are modelled as `List Char` (one element per UTF-16
unit); the helpers `jsTrimEnd`, `jsTrimStart`, `jsLastIndexOf` mirror the
corresponding JS string operations on that representation.
-/

namespace Moltbot

/-- A character counts as whitespace for trimming and for the /\s/ test. -/
def isWs (c : Char) : Bool := c.isWhitespace

/-- JS String.prototype.trimEnd on the char-list representation. -/
def jsTrimEnd (l : List Char) : List Char :=
  (l.reverse.dropWhile isWs).reverse

/-- JS String.prototype.trimStart on the char-list representation. -/
def jsTrimStart (l : List Char) : List Char :=
  l.dropWhile isWs

/-- JS String.prototype.trim. -/
def jsTrim (l : List Char) : List Char := jsTrimStart (jsTrimEnd l)

/-- JS String.prototype.lastIndexOf for a single-character needle:
`-1` when the character does not occur, else the largest index at which
it occurs. -/
def jsLastIndexOf (c : Char) : List Char → Int
  | [] => -1
  | x :: xs =>
    let r := jsLastIndexOf c xs
    if r ≥ 0 then r + 1
    else if x = c then 0 else -1

/-!
## Text chunker

Embeds chunkText of src/extensions/lark/src/send.ts (lines 173-198):

```
function chunkText(text, limit) {
  if (!text) return [];
  if (limit <= 0 || text.length <= limit) return [text];
  const chunks = []; let remaining = text;
  while (remaining.length > limit) {
    const window = remaining.slice(0, limit);
    const lastNewline = window.lastIndexOf("\n");
    const lastSpace = window.lastIndexOf(" ");
    let breakIdx = lastNewline > 0 ? lastNewline : lastSpace;
    if (breakIdx <= 0) breakIdx = limit;
    const rawChunk = remaining.slice(0, breakIdx);
    const chunk = rawChunk.trimEnd();
    if (chunk.length > 0) chunks.push(chunk);
    const brokeOnSeparator = breakIdx < remaining.length && /\s/.test(remaining[breakIdx]);
    const nextStart = Math.min(remaining.length, breakIdx + (brokeOnSeparator ? 1 : 0));
    remaining = remaining.slice(nextStart).trimStart();
  }
  if (remaining.length) chunks.push(remaining);
  return chunks;
}
```

The while loop is written with a fuel argument so that the definition is
structurally recursive and evaluates inside the kernel; `chunkText`
supplies fuel `text.length`, which bounds the number of iterations
because each iteration removes at least one character from `remaining`
whenever `0 < limit` (the only way `chunkLoop` is reached).
-/

/-- The break index the loop picks inside the current window:
`breakIdx = lastNewline > 0 ? lastNewline : lastSpace; if (breakIdx <= 0) breakIdx = limit`. -/
def breakIdxOf (window : List Char) (limit : Nat) : Nat :=
  let lastNewline := jsLastIndexOf '\n' window
  let lastSpace := jsLastIndexOf ' ' window
  let breakIdx0 : Int := if lastNewline > 0 then lastNewline else lastSpace
  if breakIdx0 ≤ 0 then limit else breakIdx0.toNat

/-- `nextStart = Math.min(remaining.length, breakIdx + (brokeOnSeparator ? 1 : 0))`
where `brokeOnSeparator = breakIdx < remaining.length && /\s/.test(remaining[breakIdx])`. -/
def nextStartOf (remaining : List Char) (breakIdx : Nat) : Nat :=
  let sepIsWs :=
    match remaining.drop breakIdx with
    | c :: _ => isWs c
    | [] => false
  let brokeOnSeparator := decide (breakIdx < remaining.length) && sepIsWs
  min remaining.length (breakIdx + (if brokeOnSeparator then 1 else 0))

/-- The chunk one loop iteration pushes (before the emptiness check):
`remaining.slice(0, breakIdx).trimEnd()`. -/
def chunkOf (remaining : List Char) (limit : Nat) : List Char :=
  jsTrimEnd (remaining.take (breakIdxOf (remaining.take limit) limit))

/-- The `remaining` value after one loop iteration:
`remaining.slice(nextStart).trimStart()`. -/
def restOf (remaining : List Char) (limit : Nat) : List Char :=
  jsTrimStart
    (remaining.drop (nextStartOf remaining (breakIdxOf (remaining.take limit) limit)))

/-- One-per-iteration unfolding of the chunking while loop, followed by the
final `if (remaining.length) chunks.push(remaining)`. -/
def chunkLoop (fuel : Nat) (remaining : List Char) (limit : Nat) :
    List (List Char) :=
  if remaining.length ≤ limit then
    if remaining = [] then [] else [remaining]
  else
    match fuel with
    | 0 => [remaining]
    | fuel + 1 =>
      if chunkOf remaining limit = [] then chunkLoop fuel (restOf remaining limit) limit
      else chunkOf remaining limit :: chunkLoop fuel (restOf remaining limit) limit

/-- chunkText of send.ts: split text into chunks of at most `limit` units. -/
def chunkText (text : List Char) (limit : Nat) : List (List Char) :=
  if text = [] then []
  else if limit = 0 ∨ text.length ≤ limit then [text]
  else chunkLoop text.length text limit

/-!
### Chunker lemmas
-/

/-- The non-whitespace content of a string, the observation preserved by
chunking (claim C7's "ignoring break normalization"). -/
def nonWs (c : Char) : Bool := !(isWs c)

theorem dropWhile_length_le (p : Char → Bool) :
    ∀ l : List Char, (l.dropWhile p).length ≤ l.length := by
  intro l
  induction l with
  | nil => exact Nat.le_refl _
  | cons x xs ih =>
    cases hx : p x with
    | true => simp only [List.dropWhile_cons, hx, if_true]
              exact Nat.le_succ_of_le ih
    | false => simp [List.dropWhile_cons, hx]

theorem length_jsTrimStart_le (l : List Char) :
    (jsTrimStart l).length ≤ l.length :=
  dropWhile_length_le isWs l

theorem length_jsTrimEnd_le (l : List Char) :
    (jsTrimEnd l).length ≤ l.length := by
  unfold jsTrimEnd
  calc ((l.reverse.dropWhile isWs).reverse).length
      = (l.reverse.dropWhile isWs).length := List.length_reverse _
    _ ≤ l.reverse.length := dropWhile_length_le isWs l.reverse
    _ = l.length := List.length_reverse _

theorem filter_nonWs_dropWhileWs (l : List Char) :
    (l.dropWhile isWs).filter nonWs = l.filter nonWs := by
  induction l with
  | nil => rfl
  | cons x xs ih =>
    cases hx : isWs x with
    | true => simp [List.dropWhile_cons, hx, List.filter_cons, nonWs, ih]
    | false => simp [List.dropWhile_cons, hx]

theorem filter_nonWs_jsTrimStart (l : List Char) :
    (jsTrimStart l).filter nonWs = l.filter nonWs :=
  filter_nonWs_dropWhileWs l

theorem filter_nonWs_jsTrimEnd (l : List Char) :
    (jsTrimEnd l).filter nonWs = l.filter nonWs := by
  unfold jsTrimEnd
  rw [List.filter_reverse, filter_nonWs_dropWhileWs, List.filter_reverse,
    List.reverse_reverse]

theorem jsLastIndexOf_lt_length (c : Char) :
    ∀ l : List Char, jsLastIndexOf c l < (l.length : Int) := by
  intro l
  induction l with
  | nil => simp [jsLastIndexOf]
  | cons x xs ih =>
    simp only [jsLastIndexOf, List.length_cons]
    split
    · push_cast; omega
    · split <;> push_cast <;> omega

theorem breakIdxOf_pos (window : List Char) (limit : Nat) (hl : 0 < limit) :
    0 < breakIdxOf window limit := by
  simp only [breakIdxOf]
  split <;> split <;> omega

theorem breakIdxOf_le (window : List Char) (limit : Nat)
    (hw : window.length ≤ limit) : breakIdxOf window limit ≤ limit := by
  simp only [breakIdxOf]
  have hn := jsLastIndexOf_lt_length '\n' window
  have hs := jsLastIndexOf_lt_length ' ' window
  split <;> split <;> omega

theorem window_length_le (remaining : List Char) (limit : Nat) :
    (remaining.take limit).length ≤ limit := by
  rw [List.length_take]; exact min_le_left _ _

/-- Value of `nextStart` once the break index is known to be in range. -/
theorem nextStartOf_eq (remaining : List Char) (b : Nat)
    (hblt : b < remaining.length) :
    nextStartOf remaining b = if isWs remaining[b] then b + 1 else b := by
  have hd : remaining.drop b = remaining[b] :: remaining.drop (b + 1) :=
    List.drop_eq_getElem_cons hblt
  simp only [nextStartOf, hd]
  cases hw : isWs remaining[b] with
  | true => simp only [hw, decide_eq_true hblt, Bool.true_and, if_true]; omega
  | false => simp [hw]; omega

/-- One loop iteration preserves the non-whitespace content: the chunk it
emits plus the new `remaining` carry exactly the old `remaining`'s
non-whitespace characters. -/
theorem chunk_rest_filter (remaining : List Char) (limit : Nat)
    (hgt : limit < remaining.length) :
    (chunkOf remaining limit).filter nonWs ++ (restOf remaining limit).filter nonWs
      = remaining.filter nonWs := by
  have hb2 : breakIdxOf (remaining.take limit) limit ≤ limit :=
    breakIdxOf_le _ _ (window_length_le _ _)
  set b := breakIdxOf (remaining.take limit) limit with hbdef
  have hblt : b < remaining.length := lt_of_le_of_lt hb2 hgt
  have hd : remaining.drop b = remaining[b] :: remaining.drop (b + 1) :=
    List.drop_eq_getElem_cons hblt
  have hsplit : remaining.filter nonWs
      = (remaining.take b).filter nonWs ++ (remaining.drop b).filter nonWs := by
    rw [← List.filter_append, List.take_append_drop]
  unfold chunkOf restOf
  rw [← hbdef, filter_nonWs_jsTrimEnd, filter_nonWs_jsTrimStart,
    nextStartOf_eq remaining b hblt, hsplit]
  cases hw : isWs remaining[b] with
  | true =>
    rw [if_pos rfl, hd, List.filter_cons]
    have : nonWs remaining[b] = false := by simp [nonWs, hw]
    rw [this]
    simp
  | false =>
    rw [if_neg (by simp [hw])]

/-- Each loop iteration strictly shortens `remaining` (given a positive
limit), which justifies the fuel `text.length`. -/
theorem restOf_length_lt (remaining : List Char) (limit : Nat)
    (hl : 0 < limit) (hgt : limit < remaining.length) :
    (restOf remaining limit).length < remaining.length := by
  have hb1 : 0 < breakIdxOf (remaining.take limit) limit := breakIdxOf_pos _ _ hl
  have hb2 : breakIdxOf (remaining.take limit) limit ≤ limit :=
    breakIdxOf_le _ _ (window_length_le _ _)
  set b := breakIdxOf (remaining.take limit) limit with hbdef
  have hblt : b < remaining.length := lt_of_le_of_lt hb2 hgt
  have h1 : (restOf remaining limit).length
      ≤ (remaining.drop (nextStartOf remaining b)).length := by
    unfold restOf
    rw [← hbdef]
    exact length_jsTrimStart_le _
  rw [List.length_drop] at h1
  rw [nextStartOf_eq remaining b hblt] at h1
  split at h1 <;> omega

/-- Each emitted loop chunk fits in the limit. -/
theorem chunkOf_length_le (remaining : List Char) (limit : Nat) :
    (chunkOf remaining limit).length ≤ limit := by
  have hb2 : breakIdxOf (remaining.take limit) limit ≤ limit :=
    breakIdxOf_le _ _ (window_length_le _ _)
  calc (chunkOf remaining limit).length
      ≤ (remaining.take (breakIdxOf (remaining.take limit) limit)).length :=
        length_jsTrimEnd_le _
    _ ≤ breakIdxOf (remaining.take limit) limit := by
        rw [List.length_take]; exact min_le_left _ _
    _ ≤ limit := hb2

/-- Loop exit: when `remaining` fits in the limit only the final push runs. -/
theorem chunkLoop_base (fuel : Nat) (remaining : List Char) (limit : Nat)
    (hle : remaining.length ≤ limit) :
    chunkLoop fuel remaining limit = if remaining = [] then [] else [remaining] := by
  cases fuel <;> (unfold chunkLoop; rw [if_pos hle])

/-- Loop step: one iteration of the while loop. -/
theorem chunkLoop_succ (fuel : Nat) (remaining : List Char) (limit : Nat)
    (hgt : limit < remaining.length) :
    chunkLoop (fuel + 1) remaining limit =
      if chunkOf remaining limit = []
      then chunkLoop fuel (restOf remaining limit) limit
      else chunkOf remaining limit :: chunkLoop fuel (restOf remaining limit) limit := by
  conv_lhs => unfold chunkLoop
  rw [if_neg (not_le.mpr hgt)]

theorem chunkLoop_flatten_filter :
    ∀ (fuel : Nat) (remaining : List Char) (limit : Nat), 0 < limit →
      remaining.length ≤ fuel →
      ((chunkLoop fuel remaining limit).flatten).filter nonWs
        = remaining.filter nonWs := by
  intro fuel
  induction fuel with
  | zero =>
    intro remaining limit hl hf
    have h0 : remaining = [] := List.length_eq_zero.mp (Nat.le_zero.mp hf)
    subst h0
    simp [chunkLoop]
  | succ fuel ih =>
    intro remaining limit hl hf
    by_cases hle : remaining.length ≤ limit
    · rw [chunkLoop_base _ _ _ hle]
      by_cases hnil : remaining = []
      · subst hnil; simp
      · rw [if_neg hnil]; simp
    · push_neg at hle
      rw [chunkLoop_succ fuel remaining limit hle]
      have hrl := restOf_length_lt remaining limit hl hle
      have hstep := chunk_rest_filter remaining limit hle
      have hrest := ih (restOf remaining limit) limit hl (by omega)
      by_cases hc : chunkOf remaining limit = []
      · rw [if_pos hc]
        calc ((chunkLoop fuel (restOf remaining limit) limit).flatten).filter nonWs
            = (restOf remaining limit).filter nonWs := hrest
          _ = (chunkOf remaining limit).filter nonWs
                ++ (restOf remaining limit).filter nonWs := by rw [hc]; rfl
          _ = remaining.filter nonWs := hstep
      · rw [if_neg hc]
        rw [List.flatten_cons, List.filter_append, hrest, hstep]

theorem chunkLoop_chunks :
    ∀ (fuel : Nat) (remaining : List Char) (limit : Nat), 0 < limit →
      remaining.length ≤ fuel →
      ∀ c ∈ chunkLoop fuel remaining limit, c ≠ [] ∧ c.length ≤ limit := by
  intro fuel
  induction fuel with
  | zero =>
    intro remaining limit hl hf
    have h0 : remaining = [] := List.length_eq_zero.mp (Nat.le_zero.mp hf)
    subst h0
    simp [chunkLoop]
  | succ fuel ih =>
    intro remaining limit hl hf
    by_cases hle : remaining.length ≤ limit
    · rw [chunkLoop_base _ _ _ hle]
      by_cases hnil : remaining = []
      · subst hnil; simp
      · rw [if_neg hnil]
        intro c hc
        rw [List.mem_singleton] at hc
        subst hc
        exact ⟨hnil, hle⟩
    · push_neg at hle
      rw [chunkLoop_succ fuel remaining limit hle]
      have hrl := restOf_length_lt remaining limit hl hle
      have hrest := ih (restOf remaining limit) limit hl (by omega)
      by_cases hc : chunkOf remaining limit = []
      · rw [if_pos hc]; exact hrest
      · rw [if_neg hc]
        intro c hcm
        rcases List.mem_cons.mp hcm with h | h
        · subst h; exact ⟨hc, chunkOf_length_le _ _⟩
        · exact hrest c h

theorem dropWhile_idem (p : Char → Bool) (l : List Char) :
    (l.dropWhile p).dropWhile p = l.dropWhile p := by
  induction l with
  | nil => rfl
  | cons x xs ih =>
    cases hx : p x with
    | true => simp only [List.dropWhile_cons, hx, if_true]; exact ih
    | false => simp [List.dropWhile_cons, hx]

theorem jsTrimEnd_idem (l : List Char) : jsTrimEnd (jsTrimEnd l) = jsTrimEnd l := by
  unfold jsTrimEnd
  rw [List.reverse_reverse, dropWhile_idem]

/-- All chunks produced inside the loop are right-trimmed; only the final
remainder chunk (pushed after the loop) may keep trailing whitespace. -/
theorem chunkLoop_dropLast_trimmed :
    ∀ (fuel : Nat) (remaining : List Char) (limit : Nat),
      ∀ c ∈ (chunkLoop fuel remaining limit).dropLast, jsTrimEnd c = c := by
  intro fuel
  induction fuel with
  | zero =>
    intro remaining limit
    unfold chunkLoop
    split
    · split <;> simp
    · simp
  | succ fuel ih =>
    intro remaining limit
    by_cases hle : remaining.length ≤ limit
    · rw [chunkLoop_base _ _ _ hle]
      split <;> simp
    · push_neg at hle
      rw [chunkLoop_succ fuel remaining limit hle]
      by_cases hc : chunkOf remaining limit = []
      · rw [if_pos hc]; exact ih _ _
      · rw [if_neg hc]
        intro c hcm
        rcases hrec : chunkLoop fuel (restOf remaining limit) limit with _ | ⟨r, rs⟩
        · rw [hrec] at hcm; simp at hcm
        · rw [hrec, List.dropLast_cons₂] at hcm
          rcases List.mem_cons.mp hcm with h | h
          · subst h
            show jsTrimEnd (jsTrimEnd _) = _
            exact jsTrimEnd_idem _
          · have := ih (restOf remaining limit) limit
            rw [hrec] at this
            exact this c h

theorem breakIdxOf_newline (window : List Char) (limit : Nat) (p : Nat)
    (hp : jsLastIndexOf '\n' window = (p : Int)) (hppos : 0 < p) :
    breakIdxOf window limit = p := by
  simp only [breakIdxOf, hp]
  split <;> split <;> omega

theorem breakIdxOf_space (window : List Char) (limit : Nat) (p : Nat)
    (hn : jsLastIndexOf '\n' window ≤ 0)
    (hp : jsLastIndexOf ' ' window = (p : Int)) (hppos : 0 < p) :
    breakIdxOf window limit = p := by
  simp only [breakIdxOf, hp]
  split <;> (try split) <;> omega

theorem breakIdxOf_hardcut (window : List Char) (limit : Nat)
    (hn : jsLastIndexOf '\n' window ≤ 0)
    (hs : jsLastIndexOf ' ' window ≤ 0) :
    breakIdxOf window limit = limit := by
  simp only [breakIdxOf]
  split <;> omega

/-- When the input overflows the limit and the first loop chunk survives
trimming, it is the head of the output. -/
theorem chunkText_first (text : List Char) (limit : Nat)
    (hl : 0 < limit) (hgt : limit < text.length)
    (hc : chunkOf text limit ≠ []) :
    (chunkText text limit).head? = some (chunkOf text limit) := by
  have hne : text ≠ [] := by
    intro h
    rw [h] at hgt
    simp at hgt
  unfold chunkText
  rw [if_neg hne, if_neg (by omega : ¬(limit = 0 ∨ text.length ≤ limit))]
  obtain ⟨k, hk⟩ : ∃ k, text.length = k + 1 := ⟨text.length - 1, by omega⟩
  rw [hk, chunkLoop_succ k text limit hgt, if_neg hc]
  rfl

/-!
### Chunker theorems (claims C6, C7, C10)
-/

/-- C7: chunking never loses, duplicates or reorders non-whitespace
characters: the concatenation of all chunks has exactly the input's
non-whitespace content, for every input and every limit. -/
theorem chunkText_preserves_content (text : List Char) (limit : Nat) :
    ((chunkText text limit).flatten).filter nonWs = text.filter nonWs := by
  unfold chunkText
  by_cases h0 : text = []
  · subst h0; simp
  · rw [if_neg h0]
    by_cases hg : limit = 0 ∨ text.length ≤ limit
    · rw [if_pos hg]; simp
    · rw [if_neg hg]
      push_neg at hg
      exact chunkLoop_flatten_filter text.length text limit
        (Nat.pos_of_ne_zero hg.1) (Nat.le_refl _)

/-- C10: for a positive limit every chunk returned by the chunker is
non-empty and no longer than the limit. -/
theorem chunkText_chunk_bounds (text : List Char) (limit : Nat)
    (hl : 0 < limit) :
    ∀ c ∈ chunkText text limit, c ≠ [] ∧ c.length ≤ limit := by
  unfold chunkText
  by_cases h0 : text = []
  · subst h0; simp
  · rw [if_neg h0]
    by_cases hg : limit = 0 ∨ text.length ≤ limit
    · rw [if_pos hg]
      intro c hc
      rw [List.mem_singleton] at hc
      subst hc
      rcases hg with hg | hg
      · omega
      · exact ⟨h0, hg⟩
    · rw [if_neg hg]
      push_neg at hg
      exact chunkLoop_chunks text.length text limit hl (Nat.le_refl _)

/-- C10 witness: for the input "aaaa bb" with limit 4 the chunk "bb" is
produced, is non-empty and fits the limit. -/
theorem chunkText_chunk_bounds_witness :
    0 < 4 ∧ ((['b', 'b'] : List Char) ≠ [] ∧ (['b', 'b'] : List Char).length ≤ 4) :=
  ⟨by decide,
    chunkText_chunk_bounds ['a', 'a', 'a', 'a', ' ', 'b', 'b'] 4 (by decide)
      ['b', 'b'] (by decide)⟩

/-- C6 counterexample. The claim says the chunker falls back to "the last
whitespace" and that "trailing whitespace is trimmed from each emitted
chunk". Both fail on the code:
1. For "ab\tcdef" with limit 5 the 5-unit window contains a whitespace
   character (the tab, at positive offset 2), yet the split is a hard cut
   at the limit — the first emitted chunk is the full window including the
   tab — because the code only looks for the space character " ".
2. For "aaaaaa bb " with limit 6 the final emitted chunk is "bb " with its
   trailing space kept: the remainder pushed after the loop is not
   right-trimmed. -/
theorem chunkText_split_claim_counterexample :
    (chunkText ['a', 'b', '\t', 'c', 'd', 'e', 'f'] 5
        = [['a', 'b', '\t', 'c', 'd'], ['e', 'f']]
      ∧ isWs '\t' = true
      ∧ (['a', 'b', '\t', 'c', 'd', 'e', 'f'] : List Char).take 5
          = ['a', 'b', '\t', 'c', 'd'])
    ∧ (chunkText ['a', 'a', 'a', 'a', 'a', 'a', ' ', 'b', 'b', ' '] 6
        = [['a', 'a', 'a', 'a', 'a', 'a'], ['b', 'b', ' ']]
      ∧ jsTrimEnd ['b', 'b', ' '] ≠ ['b', 'b', ' ']) := by
  exact ⟨⟨by decide, by decide, by decide⟩, by decide, by decide⟩

/-- C6 (amended): for 0 < limit,
* text not exceeding the limit is returned unchanged as a single chunk;
* every chunk except the final remainder chunk is right-trimmed;
* if the text overflows the limit, the first chunk is obtained by
  right-trimming the prefix cut at: the last newline in the first
  limit-sized window when it sits at a positive offset, else the last
  space character (not arbitrary whitespace) when it sits at a positive
  offset, else exactly at the limit (hard cut). -/
theorem chunkText_split_rule_amended (text : List Char) (limit : Nat)
    (hl : 0 < limit) :
    (text ≠ [] → text.length ≤ limit → chunkText text limit = [text]) ∧
    (∀ c ∈ (chunkText text limit).dropLast, jsTrimEnd c = c) ∧
    (∀ p : Nat, limit < text.length → 0 < p →
      jsLastIndexOf '\n' (text.take limit) = (p : Int) →
      jsTrimEnd (text.take p) ≠ [] →
      (chunkText text limit).head? = some (jsTrimEnd (text.take p))) ∧
    (∀ p : Nat, limit < text.length → 0 < p →
      jsLastIndexOf '\n' (text.take limit) ≤ 0 →
      jsLastIndexOf ' ' (text.take limit) = (p : Int) →
      jsTrimEnd (text.take p) ≠ [] →
      (chunkText text limit).head? = some (jsTrimEnd (text.take p))) ∧
    (limit < text.length →
      jsLastIndexOf '\n' (text.take limit) ≤ 0 →
      jsLastIndexOf ' ' (text.take limit) ≤ 0 →
      jsTrimEnd (text.take limit) ≠ [] →
      (chunkText text limit).head? = some (jsTrimEnd (text.take limit))) := by
  refine ⟨?_, ?_, ?_, ?_, ?_⟩
  · intro hne hle
    unfold chunkText
    rw [if_neg hne, if_pos (Or.inr hle)]
  · unfold chunkText
    by_cases h0 : text = []
    · subst h0; simp
    · rw [if_neg h0]
      by_cases hg : limit = 0 ∨ text.length ≤ limit
      · rw [if_pos hg]; simp
      · rw [if_neg hg]
        exact chunkLoop_dropLast_trimmed text.length text limit
  · intro p hgt hppos hp hc
    have hb : breakIdxOf (text.take limit) limit = p :=
      breakIdxOf_newline _ _ _ hp hppos
    have hco : chunkOf text limit = jsTrimEnd (text.take p) := by
      unfold chunkOf; rw [hb]
    rw [← hco] at hc ⊢
    exact chunkText_first text limit hl hgt hc
  · intro p hgt hppos hn hp hc
    have hb : breakIdxOf (text.take limit) limit = p :=
      breakIdxOf_space _ _ _ hn hp hppos
    have hco : chunkOf text limit = jsTrimEnd (text.take p) := by
      unfold chunkOf; rw [hb]
    rw [← hco] at hc ⊢
    exact chunkText_first text limit hl hgt hc
  · intro hgt hn hs hc
    have hb : breakIdxOf (text.take limit) limit = limit :=
      breakIdxOf_hardcut _ _ hn hs
    have hco : chunkOf text limit = jsTrimEnd (text.take limit) := by
      unfold chunkOf; rw [hb]
    rw [← hco] at hc ⊢
    exact chunkText_first text limit hl hgt hc

/-- C6 witness: for "aaa bbb" with limit 5 the space at offset 3 is the
break point, so the head chunk is the right-trimmed prefix of length 3. -/
theorem chunkText_split_rule_amended_witness :
    (chunkText ['a', 'a', 'a', ' ', 'b', 'b', 'b'] 5).head?
      = some (jsTrimEnd ((['a', 'a', 'a', ' ', 'b', 'b', 'b'] : List Char).take 3)) :=
  (chunkText_split_rule_amended ['a', 'a', 'a', ' ', 'b', 'b', 'b'] 5
      (by decide)).2.2.2.1 3 (by decide) (by decide) (by decide) (by decide)
    (by decide)

/-!
## Retrying API client

Embeds the retry machinery of src/extensions/lark/src/api.ts (lines
11-83): the constants `RETRY_CONFIG`, the classifier `isRetryableError`
(error codes plus case-insensitive message patterns), the delay
`computeRetryDelay`, and the wrapper `withRetry`.

An error is a record with an optional numeric `code` and a `message`.
The wrapped operation is modelled as a map from the attempt index to the
outcome that attempt would produce; `withRetry` returns the result
together with the number of attempts executed and the list of sleeps, so
the retry policy is observable. The `for` loop is fuel recursion with
fuel `maxAttempts`, exactly the loop bound; the fuel-exhausted case is
the `throw lastError` after the loop.
-/

structure LarkError where
  code : Option Nat
  message : String
deriving DecidableEq

def RETRY_maxAttempts : Nat := 3
def RETRY_initialDelayMs : Nat := 500
def RETRY_maxDelayMs : Nat := 5000
def RETRY_factor : Nat := 2

def RETRYABLE_ERROR_CODES : List Nat := [99991400, 99991663, 99991672]

def RETRYABLE_ERROR_PATTERNS : List String :=
  ["ECONNRESET", "ETIMEDOUT", "ENOTFOUND", "ECONNREFUSED", "socket hang up",
    "network"]

/-- Is `pat` a contiguous substring of `hay`? -/
def hasInfix (hay pat : List Char) : Bool :=
  match hay with
  | [] => pat.isEmpty
  | c :: t => pat.isPrefixOf (c :: t) || hasInfix t pat

def jsToLower (l : List Char) : List Char := l.map Char.toLower

/-- Case-insensitive substring test: the regexes in
RETRYABLE_ERROR_PATTERNS are all plain literals with the `i` flag. -/
def matchesCI (msg pat : String) : Bool :=
  hasInfix (jsToLower msg.data) (jsToLower pat.data)

/-- isRetryableError of api.ts: a retryable platform error code (`0` is
falsy in JS, hence the extra test), or a transient-network message. -/
def isRetryableError (e : LarkError) : Bool :=
  (match e.code with
   | some c => decide (c ≠ 0) && RETRYABLE_ERROR_CODES.contains c
   | none => false)
  || RETRYABLE_ERROR_PATTERNS.any (fun pat => matchesCI e.message pat)

/-- computeRetryDelay of api.ts:
`Math.min(initialDelayMs * factor ** attempt, maxDelayMs)`. -/
def computeRetryDelay (attempt : Nat) : Nat :=
  min (RETRY_initialDelayMs * RETRY_factor ^ attempt) RETRY_maxDelayMs

/-- Observable outcome of one `withRetry` run: the surfaced result, the
number of attempts executed, and the delays slept between attempts. The
error side is `Option LarkError` because the unreachable `throw lastError`
after the loop throws a possibly-undefined binding. -/
structure RetryTrace (α : Type) where
  result : Except (Option LarkError) α
  attempts : Nat
  delays : List Nat

def withRetryGo {α : Type} (op : Nat → Except LarkError α) :
    Nat → Nat → Option LarkError → RetryTrace α
  | _, 0, lastError => ⟨Except.error lastError, 0, []⟩
  | attempt, fuel + 1, _ =>
    match op attempt with
    | Except.ok v => ⟨Except.ok v, 1, []⟩
    | Except.error e =>
      if !(isRetryableError e) || RETRY_maxAttempts - 1 ≤ attempt then
        ⟨Except.error (some e), 1, []⟩
      else
        let t := withRetryGo op (attempt + 1) fuel (some e)
        ⟨t.result, t.attempts + 1, computeRetryDelay attempt :: t.delays⟩

/-- withRetry of api.ts: up to `RETRY_maxAttempts` attempts, retrying only
retryable errors, sleeping `computeRetryDelay attempt` between attempts. -/
def withRetry {α : Type} (op : Nat → Except LarkError α) : RetryTrace α :=
  withRetryGo op 0 RETRY_maxAttempts none

theorem withRetryGo_succ {α : Type} (op : Nat → Except LarkError α)
    (attempt fuel : Nat) (last : Option LarkError) :
    withRetryGo op attempt (fuel + 1) last =
      match op attempt with
      | Except.ok v => ⟨Except.ok v, 1, []⟩
      | Except.error e =>
        if !(isRetryableError e) || RETRY_maxAttempts - 1 ≤ attempt then
          ⟨Except.error (some e), 1, []⟩
        else
          let t := withRetryGo op (attempt + 1) fuel (some e)
          ⟨t.result, t.attempts + 1, computeRetryDelay attempt :: t.delays⟩ := rfl

/-- C2: a call failing on every attempt with a retryable error is tried
exactly 3 times with delays `min(5000, 500·2^k)` after 0-indexed attempt
k before the last error surfaces; a call failing with a non-retryable
error is tried exactly once with no delay; and the delay formula is
`min(5000, 500·2^k)`. -/
theorem withRetry_policy {α : Type} (op : Nat → Except LarkError α) :
    ((∀ k, k < 3 → ∃ e, op k = Except.error e ∧ isRetryableError e = true) →
      (withRetry op).attempts = 3
        ∧ (withRetry op).delays = [500, 1000]
        ∧ ∃ e, op 2 = Except.error e
            ∧ (withRetry op).result = Except.error (some e)) ∧
    ((∃ e, op 0 = Except.error e ∧ isRetryableError e = false) →
      (withRetry op).attempts = 1 ∧ (withRetry op).delays = []
        ∧ ∃ e, op 0 = Except.error e
            ∧ (withRetry op).result = Except.error (some e)) ∧
    (∀ k, computeRetryDelay k = min 5000 (500 * 2 ^ k)) := by
  refine ⟨?_, ?_, ?_⟩
  · intro h
    obtain ⟨e0, h0, r0⟩ := h 0 (by omega)
    obtain ⟨e1, h1, r1⟩ := h 1 (by omega)
    obtain ⟨e2, h2, r2⟩ := h 2 (by omega)
    have t2 : withRetryGo op 2 1 (some e1)
        = ⟨Except.error (some e2), 1, []⟩ := by
      rw [show (1 : Nat) = 0 + 1 from rfl, withRetryGo_succ, h2]
      simp [r2, RETRY_maxAttempts]
    have t1 : withRetryGo op 1 2 (some e0)
        = ⟨Except.error (some e2), 2, [computeRetryDelay 1]⟩ := by
      rw [show (2 : Nat) = 1 + 1 from rfl, withRetryGo_succ, h1]
      simp [r1, RETRY_maxAttempts, t2]
    have t0 : withRetryGo op 0 3 none
        = ⟨Except.error (some e2), 3, [computeRetryDelay 0, computeRetryDelay 1]⟩ := by
      rw [show (3 : Nat) = 2 + 1 from rfl, withRetryGo_succ, h0]
      simp [r0, RETRY_maxAttempts, t1]
    have hw : withRetry op
        = ⟨Except.error (some e2), 3, [computeRetryDelay 0, computeRetryDelay 1]⟩ := by
      rw [withRetry, show RETRY_maxAttempts = 3 from rfl, t0]
    refine ⟨by rw [hw], by rw [hw]; rfl, e2, h2, by rw [hw]⟩
  · intro h
    obtain ⟨e, h0, r0⟩ := h
    have t0 : withRetryGo op 0 3 none = ⟨Except.error (some e), 1, []⟩ := by
      rw [show (3 : Nat) = 2 + 1 from rfl, withRetryGo_succ, h0]
      simp [r0]
    have hw : withRetry op = ⟨Except.error (some e), 1, []⟩ := by
      rw [withRetry, show RETRY_maxAttempts = 3 from rfl, t0]
    exact ⟨by rw [hw], by rw [hw], e, h0, by rw [hw]⟩
  · intro k
    rw [computeRetryDelay, Nat.min_comm]
    rfl

/-- C2 witness: a simulated rate-limit error (code 99991663) is tried 3
times; a permission error (no code, non-matching message) once. -/
theorem withRetry_policy_witness :
    (withRetry (fun _ =>
        (Except.error ⟨some 99991663, "rate limited"⟩ : Except LarkError Unit))).attempts = 3
    ∧ (withRetry (fun _ =>
        (Except.error ⟨none, "permission denied"⟩ : Except LarkError Unit))).attempts = 1 :=
  ⟨((withRetry_policy
        (fun _ => (Except.error ⟨some 99991663, "rate limited"⟩ : Except LarkError Unit))).1
      (fun k _ => ⟨⟨some 99991663, "rate limited"⟩, rfl, by decide⟩)).1,
    ((withRetry_policy
        (fun _ => (Except.error ⟨none, "permission denied"⟩ : Except LarkError Unit))).2.1
      ⟨⟨none, "permission denied"⟩, rfl, by decide⟩).1⟩

end Moltbot

namespace Moltbot

/-!
## WebSocket reconnect backoff and connection loop

Embeds WS_RECONNECT_POLICY, computeBackoff (send.ts lines 218-232) and
the reconnect loop of startConnection (send.ts lines 888-971).
`Math.random()` is an explicit parameter `r ∈ [0,1)`; rationals model the
JS doubles, and `jsRound` is `Math.round` on the non-negative values
occurring here.
-/

def WS_initialMs : ℚ := 1000
def WS_maxMs : ℤ := 60000
def WS_factor : ℚ := 2
def WS_jitterFraction : ℚ := 1 / 5

/-- JS Math.round for non-negative arguments: ⌊x + 1/2⌋. -/
def jsRound (x : ℚ) : ℤ := ⌊x + 1 / 2⌋

/-- computeBackoff of send.ts:
`base = initialMs * factor ** Math.max(attempt - 1, 0)`;
`jitter = base * jitterFraction * Math.random()`;
`Math.min(maxMs, Math.round(base + jitter))`. -/
def computeBackoff (attempt : Nat) (r : ℚ) : ℤ :=
  let base : ℚ := WS_initialMs * WS_factor ^ (max (attempt - 1) 0)
  let jitter : ℚ := base * WS_jitterFraction * r
  min WS_maxMs (jsRound (base + jitter))

/-- The delay formula exactly as the claim words it (for comparison with
`computeBackoff`): cap the base first, then add
jitterFraction × capped-value × r on top of the cap. -/
def claimedBackoffDelay (attempt : Nat) (r : ℚ) : ℚ :=
  min (60000 : ℚ) (1000 * 2 ^ (attempt - 1))
    + (1 / 5) * min (60000 : ℚ) (1000 * 2 ^ (attempt - 1)) * r

/-- C3 counterexample: at attempt 7 with r = 1/2 the code caps the
jittered total at 60000 ms, while the claim's formula (cap first, jitter
on top) gives 66000 ms — and the claim itself requires the delay to stay
≤ 60000 ms, which its own formula violates here. -/
theorem computeBackoff_claim_counterexample :
    computeBackoff 7 (1 / 2) = 60000
      ∧ claimedBackoffDelay 7 (1 / 2) = 66000
      ∧ ((computeBackoff 7 (1 / 2) : ℚ) ≠ claimedBackoffDelay 7 (1 / 2)) := by
  have hbase : (WS_initialMs * WS_factor ^ (max (7 - 1) 0)
      + WS_initialMs * WS_factor ^ (max (7 - 1) 0) * WS_jitterFraction * (1 / 2 : ℚ))
      = 70400 := by
    norm_num [WS_initialMs, WS_factor, WS_jitterFraction]
  have hround : jsRound (70400 : ℚ) = 70400 := by
    norm_num [jsRound, Int.floor_eq_iff]
  have hcb : computeBackoff 7 (1 / 2) = 60000 := by
    simp only [computeBackoff, WS_maxMs]
    rw [hbase, hround]
    norm_num
  have hcl : claimedBackoffDelay 7 (1 / 2) = 66000 := by
    norm_num [claimedBackoffDelay]
  exact ⟨hcb, hcl, by rw [hcb, hcl]; norm_num⟩

/-- C3 (amended): the cap applies to the jittered, rounded total:
delay(n, r) = min(60000, round(base + 0.2·base·r)) with
base = 1000·2^(n−1); hence the delay never exceeds 60000 ms, and the
attempt-1 delay lies in [1000, 1200] ms. -/
theorem computeBackoff_amended (n : Nat) (r : ℚ) (h1 : 1 ≤ n) (h10 : n ≤ 10)
    (hr0 : 0 ≤ r) (hr1 : r < 1) :
    computeBackoff n r
        = min 60000 (jsRound ((1000 * 2 ^ (n - 1) : ℚ) * (1 + r / 5)))
      ∧ computeBackoff n r ≤ 60000
      ∧ (n = 1 → 1000 ≤ computeBackoff n r ∧ computeBackoff n r ≤ 1200) := by
  have harg : WS_initialMs * WS_factor ^ (max (n - 1) 0)
      + WS_initialMs * WS_factor ^ (max (n - 1) 0) * WS_jitterFraction * r
      = (1000 * 2 ^ (n - 1) : ℚ) * (1 + r / 5) := by
    simp only [WS_initialMs, WS_factor, WS_jitterFraction, Nat.max_zero]
    ring
  refine ⟨?_, ?_, ?_⟩
  · simp only [computeBackoff, WS_maxMs]
    rw [harg]
  · simp only [computeBackoff, WS_maxMs]
    exact min_le_left _ _
  · intro hn1
    subst hn1
    simp only [computeBackoff, WS_maxMs, WS_initialMs, WS_factor,
      WS_jitterFraction, Nat.sub_self, Nat.max_zero, pow_zero, mul_one]
    have hv1 : (1000 : ℤ) ≤ jsRound (1000 + 1000 * (1 / 5) * r) := by
      rw [jsRound]
      apply Int.le_floor.mpr
      push_cast
      linarith
    have hv2 : jsRound (1000 + 1000 * (1 / 5) * r) ≤ 1200 := by
      have h : jsRound (1000 + 1000 * (1 / 5) * r) < 1201 := by
        rw [jsRound]
        apply Int.floor_lt.mpr
        push_cast
        linarith
      omega
    constructor
    · exact le_min (by omega) hv1
    · exact le_trans (min_le_right _ _) hv2

/-- C3 witness: attempt 1 with r = 0 satisfies the amended statement. -/
theorem computeBackoff_amended_witness :
    computeBackoff 1 0
        = min 60000 (jsRound ((1000 * 2 ^ (1 - 1) : ℚ) * (1 + 0 / 5)))
      ∧ computeBackoff 1 0 ≤ 60000
      ∧ (1 = 1 → 1000 ≤ computeBackoff 1 0 ∧ computeBackoff 1 0 ≤ 1200) :=
  computeBackoff_amended 1 0 (by decide) (by decide) (by decide) (by decide)

/-!
## Connection loop (startConnection)
-/

def MAX_RECONNECT_ATTEMPTS : Nat := 10

/-- One run of startConnection's while loop, abstracted over the sequence
of connection outcomes (`true` = the awaited `wsClient.start` succeeded,
`false` = it threw). Returns the number of connection attempts begun and
whether the fatal "Max reconnect attempts reached" log fires after the
loop. On success the loop resets the counter, waits for stop/abort, and
breaks; an empty outcome list models an external stop/abort while the
loop guard still holds. The function is total: reaching the attempt cap
returns normally (logging fatal) instead of crashing the process. -/
def startConnectionRun : List Bool → Nat → Nat → Nat × Bool
  | outs, reconnectAttempt, started =>
    if reconnectAttempt < MAX_RECONNECT_ATTEMPTS then
      match outs with
      | [] => (started, false)
      | true :: _ => (started + 1, false)
      | false :: rest => startConnectionRun rest (reconnectAttempt + 1) (started + 1)
    else (started, true)

/-- The inbound-message handler's counter reset (send.ts line 860):
"Reset reconnect counter on successful message". -/
def inboundEventResetAttempt (_reconnectAttempt : Nat) : Nat := 0

/-- C4: starting from a zero counter, after 10 consecutive failed
connection attempts with no intervening inbound event, exactly 10
attempts have begun — no 11th attempt is started no matter what outcomes
would follow — and the fatal condition is logged while the loop returns
normally; a successful inbound event resets the attempt counter to 0. -/
theorem startConnection_max_attempts (rest : List Bool) :
    startConnectionRun (List.replicate 10 false ++ rest) 0 0 = (10, true)
      ∧ ∀ n : Nat, inboundEventResetAttempt n = 0 := by
  have hstop : ∀ (outs : List Bool) (started : Nat),
      startConnectionRun outs 10 started = (started, true) := by
    intro outs started
    unfold startConnectionRun
    rw [if_neg (by norm_num [MAX_RECONNECT_ATTEMPTS])]
  have hstep : ∀ (outs : List Bool) (attempt started : Nat), attempt < 10 →
      startConnectionRun (false :: outs) attempt started
        = startConnectionRun outs (attempt + 1) (started + 1) := by
    intro outs attempt started h
    conv_lhs => unfold startConnectionRun
    rw [if_pos (show attempt < MAX_RECONNECT_ATTEMPTS by
      simpa [MAX_RECONNECT_ATTEMPTS] using h)]
  have hrun : ∀ (k attempt started : Nat), attempt + k = 10 →
      startConnectionRun (List.replicate k false ++ rest) attempt started
        = (started + k, true) := by
    intro k
    induction k with
    | zero =>
      intro attempt started h
      have h10 : attempt = 10 := by omega
      subst h10
      simpa using hstop rest started
    | succ k ih =>
      intro attempt started h
      rw [List.replicate_succ, List.cons_append, hstep _ _ _ (by omega),
        ih (attempt + 1) (started + 1) (by omega)]
      have harith : started + 1 + k = started + (k + 1) := by omega
      rw [harith]
  refine ⟨?_, fun _ => rfl⟩
  simpa using hrun 10 0 0 (by norm_num)

end Moltbot

namespace Moltbot

/-!
## Inbound message processor and access-control gate

Embeds processMessage of src/extensions/lark/src/monitor.ts (lines
90-300) as a pure function. External collaborators of the core runtime
(verbose-log switch, command-authorization predicate and resolver, the
pairing allow-store read, the pairing reply send outcome) are explicit
oracles in `GateEnv`; the pairing store is threaded as explicit state.
Side effects are recorded in an effect list in execution order, and the
final routing/dispatch stage is the `recordSession`/`dispatchReply`
effects together with the dispatched context's CommandAuthorized flag.

The JSON content payload is modelled as a tagged variant holding the
fields parseMessageContent reads; the recursive rich-text ("post")
extraction is abstracted to its resulting string, since no claim depends
on its internals.
-/

structure LarkGroupConfig where
  requireMention : Option Bool

structure LarkAccountConfig where
  dmPolicy : Option String
  /-- `account.config.allowFrom ?? []` mapped to strings. -/
  allowFrom : List String
  /-- `account.config.groups`, keyed by chat id. -/
  groups : List (String × LarkGroupConfig)

structure ResolvedLarkAccount where
  accountId : String
  config : LarkAccountConfig

structure MoltbotConfig where
  /-- `config.commands?.useAccessGroups`. -/
  useAccessGroups : Option Bool

structure LarkSenderId where
  /-- `""` models an absent field. -/
  open_id : String
  user_id : String

inductive LarkContent
  /-- msgType "text": the parsed `text` field (possibly absent). -/
  | text (t : Option String)
  /-- msgType "image": the parsed `image_key` field (possibly absent). -/
  | image (imageKey : Option String)
  /-- msgType "post": rich text, abstracted to its extracted plain text. -/
  | post (extracted : String)
  /-- Unrecognized message type: the raw payload treated as literal text. -/
  | otherType (raw : String)
  /-- JSON.parse threw: the raw payload treated as literal text. -/
  | unparseable (raw : String)

structure LarkMessage where
  message_id : String
  chat_id : String
  chat_type : String
  content : LarkContent
  /-- Number of entries in `message.mentions` (absent list = 0). -/
  mentions : Nat
  create_time : Option String

structure LarkMessageEvent where
  sender : LarkSenderId
  message : LarkMessage

structure ParsedContent where
  text : Option String
  imageKey : Option String

/-- parseMessageContent of monitor.ts on the tagged content model. -/
def parseMessageContent : LarkContent → ParsedContent
  | LarkContent.text t => ⟨t, none⟩
  | LarkContent.image k => ⟨none, k⟩
  | LarkContent.post extracted => ⟨some extracted, none⟩
  | LarkContent.otherType raw => ⟨some raw, none⟩
  | LarkContent.unparseable raw => ⟨some raw, none⟩

def jsTrimString (s : String) : String := ⟨jsTrim s.data⟩

/-- `const rawBody = text?.trim() || (imageKey ? "<media:image>" : "")`. -/
def rawBodyOf (pc : ParsedContent) : String :=
  let trimmed := jsTrimString (pc.text.getD "")
  if trimmed ≠ "" then trimmed
  else if pc.imageKey.getD "" ≠ "" then "<media:image>" else ""

/-- `sender.sender_id.open_id || sender.sender_id.user_id || ""`. -/
def senderIdOf (event : LarkMessageEvent) : String :=
  if event.sender.open_id ≠ "" then event.sender.open_id
  else event.sender.user_id

/-- Strip the `/^(lark|feishu|fs):/i` prefix (input already lowercased). -/
def stripChannelPrefix (l : List Char) : List Char :=
  if "lark:".data.isPrefixOf l then l.drop 5
  else if "feishu:".data.isPrefixOf l then l.drop 7
  else if "fs:".data.isPrefixOf l then l.drop 3
  else l

/-- isSenderAllowed of monitor.ts: a literal "*" entry matches anyone;
otherwise compare case-insensitively after stripping a channel prefix. -/
def isSenderAllowed (senderId : String) (allowFrom : List String) : Bool :=
  if allowFrom.contains "*" then true
  else
    let normalizedSenderId := jsToLower senderId.data
    allowFrom.any (fun entry =>
      decide (stripChannelPrefix (jsToLower entry.data) = normalizedSenderId))

/-- Oracles for the external collaborators consulted by processMessage. -/
structure GateEnv where
  /-- `core.logging.shouldLogVerbose()`. -/
  verboseLogging : Bool
  /-- `core.channel.commands.shouldComputeCommandAuthorized(rawBody, config)`. -/
  shouldComputeCommandAuthorized : String → Bool
  /-- `core.channel.commands.isControlCommandMessage(rawBody, config)`. -/
  isControlCommandMessage : String → Bool
  /-- `resolveCommandAuthorizedFromAuthorizers({useAccessGroups,
  authorizers: [{configured, allowed}]})`. -/
  resolveCommandAuthorizedFromAuthorizers : Bool → Bool → Bool → Bool
  /-- Result of `readAllowFromStore("lark")` (its `.catch` yields `[]`). -/
  storeAllowFrom : List String
  /-- The code the pairing store would mint for a newly created request. -/
  freshPairingCode : String
  /-- Whether the pairing-reply `sendTextMessage` succeeds. -/
  pairingReplySendOk : Bool

/-- The external pairing store's state: sender id ↦ active pairing code. -/
def PairingStore : Type := List (String × String)

/-- Modelled from the spec: `upsertPairingRequest` of the external pairing
store — at most one active request per sender, duplicate creation is
idempotent (the store enforces this); returns the existing or fresh code
and whether the request was newly created. -/
def upsertPairingRequest (store : PairingStore) (senderId code : String) :
    String × Bool × PairingStore :=
  match List.find? (fun p => p.1 == senderId) store with
  | some p => (p.2, false, store)
  | none => (code, true, (senderId, code) :: store)

/-- Modelled from the spec: `buildPairingReply` — a single reply
containing the sender's platform-id line and the pairing code. -/
def buildPairingReply (idLine code : String) : String :=
  idLine ++ "\n" ++ "Pairing code: " ++ code

/-- Observable side effects of one processMessage run, in order. -/
inductive Effect
  | logVerbose (msg : String)
  | logError (msg : String)
  /-- `await core.channel.pairing.readAllowFromStore("lark")`. -/
  | readAllowStore
  /-- `await core.channel.pairing.upsertPairingRequest({id: senderId})`. -/
  | upsertPairing (senderId : String)
  /-- `await sendTextMessage(client, chatId, "chat_id", text)`. -/
  | sendText (chatId text : String)
  /-- `statusSink?.({ lastOutboundAt: Date.now() })`. -/
  | statusOutbound
  /-- `await core.channel.session.recordInboundSession(...)`. -/
  | recordSession
  /-- `await core.channel.reply.dispatchReplyWithBufferedBlockDispatcher`. -/
  | dispatchReply
deriving DecidableEq

inductive GateOutcome
  | dropped
  /-- Dispatched, carrying the context's CommandAuthorized flag. -/
  | dispatched (commandAuthorized : Option Bool)
deriving DecidableEq

structure ProcResult where
  effects : List Effect
  store : PairingStore
  outcome : GateOutcome

/-- `logVerbose` reaches the runtime log only under the verbose switch. -/
def vlog (env : GateEnv) (msg : String) : List Effect :=
  if env.verboseLogging then [Effect.logVerbose msg] else []

/-- processMessage of monitor.ts (lines 90-300). -/
def processMessage (env : GateEnv) (account : ResolvedLarkAccount)
    (cfg : MoltbotConfig) (event : LarkMessageEvent) (store : PairingStore) :
    ProcResult :=
  let senderId := senderIdOf event
  let chatId := event.message.chat_id
  let isGroup := event.message.chat_type = "group"
  let pc := parseMessageContent event.message.content
  let rawBody := rawBodyOf pc
  if rawBody = "" then ⟨[], store, GateOutcome.dropped⟩
  else
    let isMentioned := isGroup ∧ 0 < event.message.mentions
    let requireMention : Bool :=
      if isGroup then
        (((account.config.groups.find? (fun g => g.1 == chatId)).map Prod.snd).bind
          LarkGroupConfig.requireMention).getD true
      else false
    if isGroup ∧ requireMention = true ∧ ¬ isMentioned then
      ⟨vlog env "Ignoring group message without mention", store, GateOutcome.dropped⟩
    else
      let dmPolicy := account.config.dmPolicy.getD "pairing"
      let configAllowFrom := account.config.allowFrom
      let shouldComputeAuth := env.shouldComputeCommandAuthorized rawBody
      let readsStore : Prop := ¬ isGroup ∧ (dmPolicy ≠ "open" ∨ shouldComputeAuth = true)
      let storeAllowFrom := if readsStore then env.storeAllowFrom else []
      let readEffects := if readsStore then [Effect.readAllowStore] else []
      let effectiveAllowFrom := configAllowFrom ++ storeAllowFrom
      let useAccessGroups : Bool := cfg.useAccessGroups ≠ some false
      let senderAllowedForCommands := isSenderAllowed senderId effectiveAllowFrom
      let commandAuthorized : Option Bool :=
        if shouldComputeAuth then
          some (env.resolveCommandAuthorizedFromAuthorizers useAccessGroups
            (decide (0 < effectiveAllowFrom.length)) senderAllowedForCommands)
        else none
      let proceed : ProcResult :=
        if isGroup ∧ env.isControlCommandMessage rawBody = true
            ∧ commandAuthorized ≠ some true then
          ⟨readEffects ++ vlog env "drop control command from unauthorized sender",
            store, GateOutcome.dropped⟩
        else
          ⟨readEffects ++ [Effect.recordSession, Effect.dispatchReply], store,
            GateOutcome.dispatched commandAuthorized⟩
      if ¬ isGroup then
        if dmPolicy = "disabled" then
          ⟨readEffects ++ vlog env "Blocked lark DM (dmPolicy=disabled)", store,
            GateOutcome.dropped⟩
        else if dmPolicy ≠ "open" then
          if senderAllowedForCommands = true then proceed
          else if dmPolicy = "pairing" then
            match upsertPairingRequest store senderId env.freshPairingCode with
            | (code, created, store') =>
              if created then
                ⟨readEffects ++ [Effect.upsertPairing senderId]
                    ++ vlog env "lark pairing request"
                    ++ [Effect.sendText chatId
                        (buildPairingReply ("Your Lark user id: " ++ senderId) code)]
                    ++ (if env.pairingReplySendOk then [Effect.statusOutbound]
                        else vlog env "lark pairing reply failed"),
                  store', GateOutcome.dropped⟩
              else
                ⟨readEffects ++ [Effect.upsertPairing senderId], store',
                  GateOutcome.dropped⟩
          else
            ⟨readEffects ++ vlog env "Blocked unauthorized lark sender", store,
              GateOutcome.dropped⟩
        else proceed
      else proceed

end Moltbot

namespace Moltbot

/-!
### Gate theorems (claims C1, C5, C9)

The concrete scenarios below instantiate the oracles: the external
command predicate recognizes "/restart" as a control command, the
resolver grants authorization exactly when an allow-list is configured
and the sender is on it, and no sender is on any allow-list store.
-/

def c9Env : GateEnv where
  verboseLogging := true
  shouldComputeCommandAuthorized := fun body => body == "/restart"
  isControlCommandMessage := fun body => body == "/restart"
  resolveCommandAuthorizedFromAuthorizers := fun _ configured allowed => configured && allowed
  storeAllowFrom := []
  freshPairingCode := "PAIR-9"
  pairingReplySendOk := true

def c9Account : ResolvedLarkAccount where
  accountId := "default"
  config := { dmPolicy := some "open", allowFrom := [], groups := [] }

def c9Cfg : MoltbotConfig where
  useAccessGroups := none

/-- A direct message whose text is whitespace only and has no media. -/
def c9Event : LarkMessageEvent where
  sender := { open_id := "ou_stranger", user_id := "" }
  message := { message_id := "m9", chat_id := "oc_chat9", chat_type := "p2p",
               content := LarkContent.text (some "   "), mentions := 0,
               create_time := none }

/-- C9: an inbound event whose extracted text trims to empty and which
carries no media marker returns before the access-control gate with no
side effects at all: no log, no allow-store read, no pairing upsert, no
send, no session record, no dispatch; the pairing store is untouched. -/
theorem processMessage_empty_silent_drop (env : GateEnv)
    (account : ResolvedLarkAccount) (cfg : MoltbotConfig)
    (event : LarkMessageEvent) (store : PairingStore)
    (htext : jsTrimString (((parseMessageContent event.message.content).text).getD "") = "")
    (hkey : ((parseMessageContent event.message.content).imageKey).getD "" = "") :
    (processMessage env account cfg event store).effects = []
      ∧ (processMessage env account cfg event store).store = store
      ∧ (processMessage env account cfg event store).outcome = GateOutcome.dropped := by
  have hraw : rawBodyOf (parseMessageContent event.message.content) = "" := by
    simp [rawBodyOf, htext, hkey]
  refine ⟨?_, ?_, ?_⟩ <;> simp [processMessage, hraw]

/-- C9 witness: a whitespace-only text message is dropped silently. -/
theorem processMessage_empty_silent_drop_witness :
    (processMessage c9Env c9Account c9Cfg c9Event []).effects = []
      ∧ (processMessage c9Env c9Account c9Cfg c9Event []).store = []
      ∧ (processMessage c9Env c9Account c9Cfg c9Event []).outcome = GateOutcome.dropped :=
  processMessage_empty_silent_drop c9Env c9Account c9Cfg c9Event []
    (by decide) (by decide)

end Moltbot

namespace Moltbot

def c1Env : GateEnv where
  verboseLogging := true
  shouldComputeCommandAuthorized := fun body => body == "/restart"
  isControlCommandMessage := fun body => body == "/restart"
  resolveCommandAuthorizedFromAuthorizers := fun _ configured allowed => configured && allowed
  storeAllowFrom := []
  freshPairingCode := "PAIR-1"
  pairingReplySendOk := true

def c1Account : ResolvedLarkAccount where
  accountId := "default"
  config := { dmPolicy := some "open", allowFrom := ["ou_admin"], groups := [] }

def c1Cfg : MoltbotConfig where
  useAccessGroups := none

/-- A direct message carrying the control command "/restart" from a
sender on no allow-list. -/
def c1Event : LarkMessageEvent where
  sender := { open_id := "ou_stranger", user_id := "" }
  message := { message_id := "m1", chat_id := "oc_chat1", chat_type := "p2p",
               content := LarkContent.text (some "/restart"), mentions := 0,
               create_time := none }

/-- C1 counterexample: under dmPolicy="open", a direct message recognized
as a control command ("/restart") from a sender not on the effective
allow-list is NOT dropped before the backend dispatch: processMessage
forwards it to session recording and reply dispatch, carrying the
computed (false) authorization flag. The pre-dispatch drop of
unauthorized control commands is gated on the conversation being a
group. -/
theorem processMessage_open_dm_counterexample :
    c1Env.isControlCommandMessage "/restart" = true
      ∧ isSenderAllowed (senderIdOf c1Event)
          (c1Account.config.allowFrom ++ c1Env.storeAllowFrom) = false
      ∧ (processMessage c1Env c1Account c1Cfg c1Event []).outcome
          = GateOutcome.dispatched (some false)
      ∧ Effect.dispatchReply ∈ (processMessage c1Env c1Account c1Cfg c1Event []).effects := by
  exact ⟨by decide, by decide, by decide, by decide⟩

/-- C1 (amended): under dmPolicy="open" for a direct message,
(a) an ordinary message (no command authorization computed) from an
arbitrary sender is forwarded to session recording and reply dispatch;
(b) a control-command message from a sender not on the effective
allow-list is likewise forwarded — not dropped in the processor — with
its CommandAuthorized flag computed from the allow-list check
(allowed = false); dropping unauthorized control commands before
dispatch applies only to group conversations. -/
theorem processMessage_open_dm_amended (env : GateEnv)
    (account : ResolvedLarkAccount) (cfg : MoltbotConfig)
    (event : LarkMessageEvent) (store : PairingStore)
    (hdm : account.config.dmPolicy = some "open")
    (hng : event.message.chat_type ≠ "group")
    (hbody : rawBodyOf (parseMessageContent event.message.content) ≠ "") :
    ((env.shouldComputeCommandAuthorized
          (rawBodyOf (parseMessageContent event.message.content)) = false →
        processMessage env account cfg event store
          = ⟨[Effect.recordSession, Effect.dispatchReply], store,
              GateOutcome.dispatched none⟩)
      ∧ (env.shouldComputeCommandAuthorized
          (rawBodyOf (parseMessageContent event.message.content)) = true →
          env.isControlCommandMessage
            (rawBodyOf (parseMessageContent event.message.content)) = true →
          isSenderAllowed (senderIdOf event)
            (account.config.allowFrom ++ env.storeAllowFrom) = false →
        processMessage env account cfg event store
          = ⟨[Effect.readAllowStore, Effect.recordSession, Effect.dispatchReply],
              store,
              GateOutcome.dispatched (some
                (env.resolveCommandAuthorizedFromAuthorizers
                  (decide (cfg.useAccessGroups ≠ some false))
                  (decide (0 < (account.config.allowFrom ++ env.storeAllowFrom).length))
                  false))⟩)) := by
  constructor
  · intro hsc
    simp [processMessage, hdm, hng, hbody, hsc]
  · intro hsc _hctl hna
    simp [processMessage, hdm, hng, hbody, hsc, hna]

/-- C1 witness: the concrete "/restart" DM under dmPolicy="open"
instantiates the amended statement's control-command case. -/
theorem processMessage_open_dm_amended_witness :
    processMessage c1Env c1Account c1Cfg c1Event []
      = ⟨[Effect.readAllowStore, Effect.recordSession, Effect.dispatchReply],
          ([] : PairingStore),
          GateOutcome.dispatched (some
            (c1Env.resolveCommandAuthorizedFromAuthorizers
              (decide (c1Cfg.useAccessGroups ≠ some false))
              (decide (0 < (c1Account.config.allowFrom ++ c1Env.storeAllowFrom).length))
              false))⟩ :=
  (processMessage_open_dm_amended c1Env c1Account c1Cfg c1Event [] rfl
      (by decide) (by decide)).2 (by decide) (by decide) (by decide)

end Moltbot

namespace Moltbot

/-- Recognizes the pairing-reply send attempt among the effects. -/
def isSendTextEffect : Effect → Bool
  | Effect.sendText _ _ => true
  | _ => false

/-- C5: under dmPolicy="pairing", a direct message from a sender not on
the effective allow-list (config allow-list ∪ pairing-approved store) is
dropped — never routed, recorded or dispatched — and a pairing upsert is
issued for the sender. Exactly one reply (containing the sender's
platform id and the pairing code) is sent when and only when the upsert
reports the request as newly created: with the sender absent from the
store the reply is the single send and the store gains the request; with
the sender already in the store (a second message before approval) no
reply at all is sent and the store is unchanged. -/
theorem processMessage_pairing_gate (env : GateEnv)
    (account : ResolvedLarkAccount) (cfg : MoltbotConfig)
    (event : LarkMessageEvent) (store : PairingStore)
    (hdm : account.config.dmPolicy = some "pairing")
    (hng : event.message.chat_type ≠ "group")
    (hbody : rawBodyOf (parseMessageContent event.message.content) ≠ "")
    (hna : isSenderAllowed (senderIdOf event)
        (account.config.allowFrom ++ env.storeAllowFrom) = false) :
    (processMessage env account cfg event store).outcome = GateOutcome.dropped
    ∧ Effect.dispatchReply ∉ (processMessage env account cfg event store).effects
    ∧ Effect.recordSession ∉ (processMessage env account cfg event store).effects
    ∧ Effect.upsertPairing (senderIdOf event)
        ∈ (processMessage env account cfg event store).effects
    ∧ (List.find? (fun p => p.1 == senderIdOf event) store = none →
        (processMessage env account cfg event store).effects.filter isSendTextEffect
          = [Effect.sendText event.message.chat_id
              (buildPairingReply ("Your Lark user id: " ++ senderIdOf event)
                env.freshPairingCode)]
        ∧ (processMessage env account cfg event store).store
            = (senderIdOf event, env.freshPairingCode) :: store)
    ∧ (∀ p, List.find? (fun q => q.1 == senderIdOf event) store = some p →
        (processMessage env account cfg event store).effects.filter isSendTextEffect
            = []
        ∧ (processMessage env account cfg event store).store = store)
    ∧ (senderIdOf event).data
        <:+: (buildPairingReply ("Your Lark user id: " ++ senderIdOf event)
            env.freshPairingCode).data
    ∧ env.freshPairingCode.data
        <:+: (buildPairingReply ("Your Lark user id: " ++ senderIdOf event)
            env.freshPairingCode).data := by
  have hinfix1 : (senderIdOf event).data
      <:+: (buildPairingReply ("Your Lark user id: " ++ senderIdOf event)
          env.freshPairingCode).data := by
    refine ⟨"Your Lark user id: ".data,
      ("\n" ++ "Pairing code: " ++ env.freshPairingCode).data, ?_⟩
    simp [buildPairingReply, String.data_append]
  have hinfix2 : env.freshPairingCode.data
      <:+: (buildPairingReply ("Your Lark user id: " ++ senderIdOf event)
          env.freshPairingCode).data := by
    refine ⟨("Your Lark user id: " ++ senderIdOf event ++ "\n"
        ++ "Pairing code: ").data, [], ?_⟩
    simp [buildPairingReply, String.data_append]
  cases hfind : List.find? (fun p => p.1 == senderIdOf event) store with
  | none =>
    refine ⟨?_, ?_, ?_, ?_, ?_, ?_, hinfix1, hinfix2⟩
    · simp [processMessage, hdm, hng, hbody, hna, upsertPairingRequest, hfind]
    · cases henv : env.verboseLogging <;> cases hok : env.pairingReplySendOk <;>
        simp [processMessage, hdm, hng, hbody, hna, upsertPairingRequest, hfind,
          vlog, henv, hok]
    · cases henv : env.verboseLogging <;> cases hok : env.pairingReplySendOk <;>
        simp [processMessage, hdm, hng, hbody, hna, upsertPairingRequest, hfind,
          vlog, henv, hok]
    · cases henv : env.verboseLogging <;> cases hok : env.pairingReplySendOk <;>
        simp [processMessage, hdm, hng, hbody, hna, upsertPairingRequest, hfind,
          vlog, henv, hok]
    · intro _
      constructor
      · cases henv : env.verboseLogging <;> cases hok : env.pairingReplySendOk <;>
          simp [processMessage, hdm, hng, hbody, hna, upsertPairingRequest, hfind,
            vlog, henv, hok, isSendTextEffect]
      · simp [processMessage, hdm, hng, hbody, hna, upsertPairingRequest, hfind]
    · intro p hp
      exact absurd hp (by simp)
  | some q =>
    refine ⟨?_, ?_, ?_, ?_, ?_, ?_, hinfix1, hinfix2⟩
    · simp [processMessage, hdm, hng, hbody, hna, upsertPairingRequest, hfind]
    · simp [processMessage, hdm, hng, hbody, hna, upsertPairingRequest, hfind]
    · simp [processMessage, hdm, hng, hbody, hna, upsertPairingRequest, hfind]
    · simp [processMessage, hdm, hng, hbody, hna, upsertPairingRequest, hfind]
    · intro hnone
      exact absurd hnone (by simp)
    · intro p _
      constructor
      · simp [processMessage, hdm, hng, hbody, hna, upsertPairingRequest, hfind,
          isSendTextEffect]
      · simp [processMessage, hdm, hng, hbody, hna, upsertPairingRequest, hfind]

end Moltbot

namespace Moltbot

def c5Env : GateEnv where
  verboseLogging := true
  shouldComputeCommandAuthorized := fun body => body == "/restart"
  isControlCommandMessage := fun body => body == "/restart"
  resolveCommandAuthorizedFromAuthorizers := fun _ configured allowed => configured && allowed
  storeAllowFrom := []
  freshPairingCode := "PAIR-5"
  pairingReplySendOk := true

def c5Account : ResolvedLarkAccount where
  accountId := "default"
  config := { dmPolicy := some "pairing", allowFrom := ["ou_admin"], groups := [] }

def c5Cfg : MoltbotConfig where
  useAccessGroups := none

/-- An ordinary direct message from an unknown sender. -/
def c5Event : LarkMessageEvent where
  sender := { open_id := "ou_stranger", user_id := "" }
  message := { message_id := "m5", chat_id := "oc_chat5", chat_type := "p2p",
               content := LarkContent.text (some "hello"), mentions := 0,
               create_time := none }

/-- C5 witness: a first message from the unknown sender sends exactly one
pairing reply and records the request; a second message with the request
already in the store sends none. -/
theorem processMessage_pairing_gate_witness :
    ((processMessage c5Env c5Account c5Cfg c5Event []).effects.filter isSendTextEffect
        = [Effect.sendText c5Event.message.chat_id
            (buildPairingReply ("Your Lark user id: " ++ senderIdOf c5Event)
              c5Env.freshPairingCode)]
      ∧ (processMessage c5Env c5Account c5Cfg c5Event []).store
          = (senderIdOf c5Event, c5Env.freshPairingCode) :: [])
    ∧ (processMessage c5Env c5Account c5Cfg c5Event
          [("ou_stranger", "PAIR-5")]).effects.filter isSendTextEffect = [] :=
  ⟨(processMessage_pairing_gate c5Env c5Account c5Cfg c5Event [] rfl
      (by decide) (by decide) (by decide)).2.2.2.2.1 (by decide),
    ((processMessage_pairing_gate c5Env c5Account c5Cfg c5Event
        [("ou_stranger", "PAIR-5")] rfl (by decide) (by decide)
        (by decide)).2.2.2.2.2.1 ("ou_stranger", "PAIR-5") (by decide)).1⟩

end Moltbot

namespace Moltbot

/-!
## Outbound delivery engine (claim C8)

Embeds deliverLarkReply of send.ts (lines 682-821) and the chunk loop of
sendMessageLark (send.ts lines 69-117).

In deliverLarkReply each media item is processed inside its own
try/catch: a `loadWebMedia` throw or a not-ok upload is logged and the
loop continues; on a successful upload the matching send call runs,
followed unconditionally by the status callback. The send helpers
(sendImageMessage, sendAudioMessage, sendFileMessage, sendTextMessage in
api.ts) wrap their whole body in try/catch and return a
`{ok, error?}` result instead of throwing; deliverLarkReply discards
that result object without inspecting or logging it, for media sends and
for text-chunk sends alike — the per-chunk catch can only fire on a
throw, which sendTextMessage never produces. The text portion then runs
unconditionally, chunked by the external chunker, only the first chunk
carrying the reply target. The per-item fetch+upload pipeline is
abstracted into a single `MediaFate` oracle, and the discarded send
results are the `sendMediaOk`/`sendChunkOk` oracles, recorded in the
send effects so that the (absence of) logging for them is observable.

In sendMessageLark, by contrast, the loop `for (const chunk of chunks)`
returns `lastResult` as soon as one send reports failure, so later chunks
are not attempted.
-/

def IMAGE_EXTENSIONS : List String := [".jpg", ".jpeg", ".png", ".gif", ".webp", ".bmp"]
def AUDIO_EXTENSIONS : List String := [".mp3", ".wav", ".ogg", ".opus", ".m4a", ".aac"]
def VIDEO_EXTENSIONS : List String := [".mp4", ".mov", ".avi", ".mkv", ".webm"]
def DOCUMENT_EXTENSIONS : List String := [".pdf", ".doc", ".docx", ".xls", ".xlsx", ".ppt", ".pptx"]

inductive MediaType
  | image | audio | video | document | unknown
deriving DecidableEq

/-- JS String.prototype.includes. -/
def jsIncludes (hay sub : String) : Bool := hasInfix hay.data sub.data

/-- detectMediaType of send.ts: classify by extension/MIME hint on the
lowercased reference. -/
def detectMediaType (url : String) : MediaType :=
  let lower : String := ⟨jsToLower url.data⟩
  if IMAGE_EXTENSIONS.any (fun ext => jsIncludes lower ext) || jsIncludes lower "image/" then
    MediaType.image
  else if AUDIO_EXTENSIONS.any (fun ext => jsIncludes lower ext) || jsIncludes lower "audio/" then
    MediaType.audio
  else if VIDEO_EXTENSIONS.any (fun ext => jsIncludes lower ext) || jsIncludes lower "video/" then
    MediaType.video
  else if DOCUMENT_EXTENSIONS.any (fun ext => jsIncludes lower ext) then
    MediaType.document
  else
    MediaType.unknown

/-- Outcome of the fetch+upload pipeline for one media reference. -/
inductive MediaFate
  /-- `loadWebMedia` (or the branch body) threw: the per-item catch logs. -/
  | fetchThrow (err : String)
  /-- The upload returned not-ok or no key: logged, no send. -/
  | uploadFail (err : String)
  /-- The upload succeeded with this key: the matching send runs. -/
  | uploadOk (key : String)
deriving DecidableEq

structure DeliverEnv where
  /-- `core.channel.text.convertMarkdownTables` (external collaborator). -/
  convertTables : String → String
  /-- `core.channel.text.chunkMarkdownTextWithMode(text, LARK_TEXT_LIMIT,
  chunkMode)` (external collaborator). -/
  chunkWithMode : String → List String
  /-- Fetch+upload outcome per media reference. -/
  mediaFate : String → MediaFate
  /-- The `ok` field of the result object returned by the media send
  after a successful upload of this url — deliverLarkReply discards it. -/
  sendMediaOk : String → Bool
  /-- The `ok` field of the result object returned by the k-th chunk's
  `sendTextMessage` — deliverLarkReply discards it. -/
  sendChunkOk : Nat → Bool

inductive DeliverEffect
  /-- The per-item iteration for this url began (the `loadWebMedia` call). -/
  | attemptMedia (url : String)
  /-- `logError(...)` for a failed fetch or upload of this url. -/
  | logMediaError (url err : String)
  /-- The media send call with its (discarded) result. -/
  | sendImage (key : String) (ok : Bool)
  | sendAudio (key : String) (ok : Bool)
  | sendFile (key : String) (ok : Bool)
  | statusOutbound
  /-- `sendTextMessage(client, chatId, "chat_id", chunk, replyTo?)` with
  its (discarded) result. -/
  | sendChunk (text : String) (replyTo : Option String) (ok : Bool)
deriving DecidableEq

/-- Is this effect a log call? -/
def isLogEffect : DeliverEffect → Bool
  | DeliverEffect.logMediaError _ _ => true
  | _ => false

/-- One iteration of deliverLarkReply's media loop. The status callback
follows the awaited send regardless of the send's result, and a failed
send result produces no log. -/
def deliverMediaItem (env : DeliverEnv) (url : String) : List DeliverEffect :=
  DeliverEffect.attemptMedia url ::
    match env.mediaFate url with
    | MediaFate.fetchThrow err => [DeliverEffect.logMediaError url err]
    | MediaFate.uploadFail err => [DeliverEffect.logMediaError url err]
    | MediaFate.uploadOk key =>
      match detectMediaType url with
      | MediaType.image =>
        [DeliverEffect.sendImage key (env.sendMediaOk url), DeliverEffect.statusOutbound]
      | MediaType.audio =>
        [DeliverEffect.sendAudio key (env.sendMediaOk url), DeliverEffect.statusOutbound]
      | MediaType.video =>
        [DeliverEffect.sendFile key (env.sendMediaOk url), DeliverEffect.statusOutbound]
      | MediaType.document =>
        [DeliverEffect.sendFile key (env.sendMediaOk url), DeliverEffect.statusOutbound]
      | MediaType.unknown =>
        [DeliverEffect.sendFile key (env.sendMediaOk url), DeliverEffect.statusOutbound]

/-- deliverLarkReply of send.ts: media items first (payload.mediaUrl then
payload.mediaUrls), then the converted text in chunks; chunk send results
are discarded (no log), the status callback fires per chunk. -/
def deliverLarkReply (env : DeliverEnv) (payloadText : String)
    (mediaUrl : Option String) (mediaUrls : List String)
    (replyToId : Option String) : List DeliverEffect :=
  let text := env.convertTables payloadText
  let urls := (match mediaUrl with | some u => [u] | none => []) ++ mediaUrls
  let mediaEffects := urls.flatMap (deliverMediaItem env)
  let textEffects :=
    if text ≠ "" then
      (env.chunkWithMode text).enum.flatMap (fun ic =>
        [DeliverEffect.sendChunk ic.2 (if ic.1 = 0 then replyToId else none)
            (env.sendChunkOk ic.1),
          DeliverEffect.statusOutbound])
    else []
  mediaEffects ++ textEffects

/-- The chunk loop of sendMessageLark: attempt chunks in order, returning
immediately when a send reports failure. `sendOk k` is the result of the
k-th send; returns (number of chunks attempted, final ok). -/
def sendChunksDirectGo (sendOk : Nat → Bool) :
    List (List Char) → Nat → Nat × Bool
  | [], attempted => (attempted, decide (0 < attempted))
  | _ :: rest, attempted =>
    if sendOk attempted then sendChunksDirectGo sendOk rest (attempted + 1)
    else (attempted + 1, false)

/-- The text path of sendMessageLark: trim, chunk with chunkText, then
the early-return send loop. -/
def sendMessageLarkChunks (sendOk : Nat → Bool) (text : List Char)
    (limit : Nat) : Nat × Bool :=
  sendChunksDirectGo sendOk (chunkText (jsTrim text) limit) 0

/-- A scenario in which every upload succeeds but every send reports
failure: media item uploads as key "k1", its send fails, the single text
chunk's send fails. -/
def c8FailEnv : DeliverEnv where
  convertTables := fun s => s
  chunkWithMode := fun _ => ["part1"]
  mediaFate := fun _ => MediaFate.uploadOk "k1"
  sendMediaOk := fun _ => false
  sendChunkOk := fun _ => false

/-- C8 counterexample, exhibiting both defects of the claim:
1. Send failures are not logged: in deliverLarkReply, with the media item
   uploaded but its send failing and the text chunk's send failing, the
   trace shows both failed sends, the status callback still fires after
   each, and no log effect at all appears — contradicting "a fetch,
   upload, or send failure of one media item or one text chunk is
   logged" (the code discards the send results).
2. One failure aborts the rest in the direct send path (sendMessageLark):
   the text "aaa bbb" at limit 3 produces two chunks, and when the first
   send fails only 1 chunk is attempted — contradicting "the failure of
   one item never aborts delivery of the rest". -/
theorem lark_delivery_claim_counterexample :
    (deliverLarkReply c8FailEnv "txt" none ["https://h/a.png"] (some "m1")
        = [DeliverEffect.attemptMedia "https://h/a.png",
            DeliverEffect.sendImage "k1" false, DeliverEffect.statusOutbound,
            DeliverEffect.sendChunk "part1" (some "m1") false,
            DeliverEffect.statusOutbound]
      ∧ (deliverLarkReply c8FailEnv "txt" none ["https://h/a.png"]
          (some "m1")).filter isLogEffect = [])
    ∧ ((chunkText (jsTrim "aaa bbb".data) 3).length = 2
      ∧ sendMessageLarkChunks (fun _ => false) "aaa bbb".data 3 = (1, false)) := by
  exact ⟨⟨by decide, by decide⟩, by decide, by decide⟩

/-- C8 (amended): in the buffered reply delivery path (deliverLarkReply)
failures are isolated but only fetch/upload failures are logged —
every media item is attempted regardless of earlier outcomes, every
fetch/upload failure is logged, every log in the trace stems from a
fetch/upload failure (so a failed send result, media or text chunk, is
never logged: the code discards it), and when the converted text is
non-empty every chunk is attempted (the first carrying the reply target)
regardless of media failures; in the direct send path (sendMessageLark)
a failed chunk send returns immediately and later chunks are not
attempted. -/
theorem deliverLarkReply_isolates_failures (env : DeliverEnv)
    (payloadText : String) (mediaUrl : Option String)
    (mediaUrls : List String) (replyToId : Option String) :
    (∀ url ∈ (match mediaUrl with | some u => [u] | none => []) ++ mediaUrls,
        DeliverEffect.attemptMedia url
          ∈ deliverLarkReply env payloadText mediaUrl mediaUrls replyToId)
    ∧ (∀ url ∈ (match mediaUrl with | some u => [u] | none => []) ++ mediaUrls,
        ∀ err, (env.mediaFate url = MediaFate.fetchThrow err
            ∨ env.mediaFate url = MediaFate.uploadFail err) →
          DeliverEffect.logMediaError url err
            ∈ deliverLarkReply env payloadText mediaUrl mediaUrls replyToId)
    ∧ (env.convertTables payloadText ≠ "" →
        ∀ ic ∈ (env.chunkWithMode (env.convertTables payloadText)).enum,
          DeliverEffect.sendChunk ic.2 (if ic.1 = 0 then replyToId else none)
              (env.sendChunkOk ic.1)
            ∈ deliverLarkReply env payloadText mediaUrl mediaUrls replyToId)
    ∧ (∀ url err,
        DeliverEffect.logMediaError url err
            ∈ deliverLarkReply env payloadText mediaUrl mediaUrls replyToId →
          env.mediaFate url = MediaFate.fetchThrow err
            ∨ env.mediaFate url = MediaFate.uploadFail err)
    ∧ (∀ (sendOk : Nat → Bool) (c0 c1 : List Char) (rest : List (List Char)),
        sendOk 0 = false →
          sendChunksDirectGo sendOk (c0 :: c1 :: rest) 0 = (1, false)) := by
  refine ⟨?_, ?_, ?_, ?_, ?_⟩
  · intro url hurl
    unfold deliverLarkReply
    refine List.mem_append.mpr (Or.inl ?_)
    exact List.mem_flatMap.mpr ⟨url, hurl, by simp [deliverMediaItem]⟩
  · intro url hurl err herr
    unfold deliverLarkReply
    refine List.mem_append.mpr (Or.inl ?_)
    refine List.mem_flatMap.mpr ⟨url, hurl, ?_⟩
    rcases herr with h | h <;> simp [deliverMediaItem, h]
  · intro htext ic hic
    unfold deliverLarkReply
    refine List.mem_append.mpr (Or.inr ?_)
    rw [if_pos htext]
    exact List.mem_flatMap.mpr ⟨ic, hic, by simp⟩
  · intro url err hmem
    simp only [deliverLarkReply] at hmem
    rcases List.mem_append.mp hmem with hm | ht
    · obtain ⟨u, hu, hmm⟩ := List.mem_flatMap.mp hm
      cases hf : env.mediaFate u with
      | fetchThrow e =>
        simp [deliverMediaItem, hf] at hmm
        rw [hmm.1, hmm.2]
        exact Or.inl hf
      | uploadFail e =>
        simp [deliverMediaItem, hf] at hmm
        rw [hmm.1, hmm.2]
        exact Or.inr hf
      | uploadOk k =>
        cases hd : detectMediaType u <;>
          simp [deliverMediaItem, hf, hd] at hmm
    · split at ht
      · obtain ⟨ic, _, h2⟩ := List.mem_flatMap.mp ht
        simp at h2
      · simp at ht
  · intro sendOk c0 c1 rest h0
    unfold sendChunksDirectGo
    rw [if_neg (by simp [h0])]

end Moltbot

namespace Moltbot

def c8Env : DeliverEnv where
  convertTables := fun s => s
  chunkWithMode := fun _ => ["part1", "part2"]
  mediaFate := fun url =>
    if url == "https://h/img.png" then MediaFate.fetchThrow "boom"
    else MediaFate.uploadOk "k1"
  sendMediaOk := fun _ => true
  sendChunkOk := fun _ => true

/-- C8 witness: with the first media item failing to fetch, the second
item is still attempted, the failure is logged, the second text chunk is
still sent, the one log in the trace traces back to the fetch failure,
and a direct-path chunk failure stops after 1 attempt. -/
theorem deliverLarkReply_isolates_failures_witness :
    DeliverEffect.attemptMedia "https://h/doc.pdf"
        ∈ deliverLarkReply c8Env "some text" none
            ["https://h/img.png", "https://h/doc.pdf"] (some "m1")
      ∧ DeliverEffect.logMediaError "https://h/img.png" "boom"
          ∈ deliverLarkReply c8Env "some text" none
              ["https://h/img.png", "https://h/doc.pdf"] (some "m1")
      ∧ DeliverEffect.sendChunk ((1, "part2") : Nat × String).2
            (if ((1, "part2") : Nat × String).1 = 0 then some "m1" else none)
            (c8Env.sendChunkOk ((1, "part2") : Nat × String).1)
          ∈ deliverLarkReply c8Env "some text" none
              ["https://h/img.png", "https://h/doc.pdf"] (some "m1")
      ∧ (c8Env.mediaFate "https://h/img.png" = MediaFate.fetchThrow "boom"
          ∨ c8Env.mediaFate "https://h/img.png" = MediaFate.uploadFail "boom")
      ∧ sendChunksDirectGo (fun _ => false) ("abc".data :: "def".data :: []) 0
          = (1, false) :=
  ⟨(deliverLarkReply_isolates_failures c8Env "some text" none
      ["https://h/img.png", "https://h/doc.pdf"] (some "m1")).1
      "https://h/doc.pdf" (by decide),
    (deliverLarkReply_isolates_failures c8Env "some text" none
      ["https://h/img.png", "https://h/doc.pdf"] (some "m1")).2.1
      "https://h/img.png" (by decide) "boom" (Or.inl (by decide)),
    (deliverLarkReply_isolates_failures c8Env "some text" none
      ["https://h/img.png", "https://h/doc.pdf"] (some "m1")).2.2.1
      (by decide) ((1, "part2") : Nat × String) (by decide),
    (deliverLarkReply_isolates_failures c8Env "some text" none
      ["https://h/img.png", "https://h/doc.pdf"] (some "m1")).2.2.2.1
      "https://h/img.png" "boom" (by decide),
    (deliverLarkReply_isolates_failures c8Env "some text" none
      ["https://h/img.png", "https://h/doc.pdf"] (some "m1")).2.2.2.2
      (fun _ => false) "abc".data "def".data [] rfl⟩

end Moltbot
